import Mathlib

/-!
Verification of the matching engine of the recruitment-agency backend
(`src/handlers/matching.rs`, `src/utils.rs`, `src/models.rs`, `src/error.rs`).

Modelling conventions:
* `f64` scores are modelled exactly over `ℚ`; the scoring formulas are
  rational-valued, and the claims are about the formulas.  The float literals
  `0.7` and `0.3` are modelled as the rationals `7/10` and `3/10`.
* `Uuid` identifiers and timestamps are modelled as `Nat`.
* Database loading is the upstream collaborator: each handler takes the result
  of the anchor lookup as an `Option` and the already-loaded pool as a list.
* Rust `Vec::sort_by` is a stable sort; it is modelled by `List.mergeSort`,
  which is also stable, with the same comparator.  The output of a stable sort is
  determined by the comparator (a total preorder here) and the input order, so
  the two agree.
* The `HashSet` intersection count in `calculate_skill_match_score` is modelled
  by the cardinality of the intersection of the `Finset`s of the two lists.
-/

/-- Worker row (`models.rs`, `pub struct Worker`). -/
structure Worker where
  id : Nat
  name : String
  email : String
  phone : Option String
  skills : List String
  experience_years : Int
  resume_url : Option String
  created_at : Nat
  updated_at : Option Nat
deriving DecidableEq, Repr

/-- Job posting row (`models.rs`, `pub struct JobPosting`). -/
structure JobPosting where
  id : Nat
  client_id : Nat
  title : String
  description : String
  requirements : List String
  salary_range : Option String
  location : String
  job_type : String
  is_active : Bool
  created_at : Nat
  updated_at : Option Nat
deriving DecidableEq, Repr

/-- Application error type (`error.rs`, `pub enum AppError`).  The `sqlx`
error payload is modelled as a string. -/
inductive AppError where
  | DatabaseError : String → AppError
  | NotFound : AppError
  | BadRequest : String → AppError
  | Unauthorized : AppError
  | InternalServerError : String → AppError
deriving DecidableEq, Repr

/-- Query parameters of both match endpoints (`matching.rs`, `MatchQuery`). -/
structure MatchQuery where
  min_score : Option ℚ
  limit : Option Nat
deriving DecidableEq, Repr

/-- Source `utils.rs` lines 113-125, `calculate_skill_match_score`: if the required
list is empty return `0.0`; otherwise build the two hash sets, count the
intersection, and divide by the *length of the required list* (not the set
cardinality), times 100. -/
def calculate_skill_match_score (job_skills worker_skills : List String) : ℚ :=
  if job_skills.isEmpty then 0
  else
    let matching_skills := (job_skills.toFinset ∩ worker_skills.toFinset).card
    (matching_skills : ℚ) / (job_skills.length : ℚ) * 100

/-- Source `utils.rs` lines 127-133, `calculate_experience_score`: full marks when
the actual years reach the (unclamped) requirement, otherwise the ratio to the
requirement clamped below by 1, times 100. -/
def calculate_experience_score (years_experience required_years : Int) : ℚ :=
  if years_experience ≥ required_years then 100
  else (years_experience : ℚ) / ((max required_years 1 : Int) : ℚ) * 100

/-- The composite score computed in `find_matches` (`matching.rs` lines
55-57): skill score times 0.7 plus experience score against the constant 3
times 0.3. -/
def matchTotalScore (job : JobPosting) (worker : Worker) : ℚ :=
  let skill_score := calculate_skill_match_score job.requirements worker.skills
  let experience_score := calculate_experience_score worker.experience_years 3
  skill_score * (7/10) + experience_score * (3/10)

/-- The composite score computed in `find_jobs_for_worker` (`matching.rs`
lines 131-133); textually the same computation as in `find_matches`. -/
def jobsTotalScore (worker : Worker) (job : JobPosting) : ℚ :=
  let skill_score := calculate_skill_match_score job.requirements worker.skills
  let experience_score := calculate_experience_score worker.experience_years 3
  skill_score * (7/10) + experience_score * (3/10)

/-- Source `models.rs`, `pub struct WorkerMatchScore`. -/
structure WorkerMatchScore where
  worker : Worker
  score : ℚ
  matching_skills : List String
deriving DecidableEq, Repr

/-- Source `matching.rs` lines 171-176, `pub struct JobMatchScore`. -/
structure JobMatchScore where
  job : JobPosting
  score : ℚ
  matching_skills : List String
deriving DecidableEq, Repr

/-- Source `models.rs`, `pub struct JobMatchResponse`. -/
structure JobMatchResponse where
  job : JobPosting
  matched_workers : List Worker
  match_count : Nat
  match_scores : List WorkerMatchScore
deriving DecidableEq, Repr

/-- The JSON object built by `find_jobs_for_worker` (`matching.rs` lines
161-166), modelled as a record. -/
structure WorkerJobsResponse where
  worker : Worker
  matched_jobs : List JobPosting
  match_count : Nat
  job_matches : List JobMatchScore
deriving DecidableEq, Repr

/-- The filtering loop of `find_matches` (`matching.rs` lines 52-72): for each
worker compute the composite score, keep the worker when the score reaches
`min_score`, and annotate it with its skills that occur among the job
requirements, in the order of the worker skills list. -/
def matchScoresFor (job : JobPosting) (workers : List Worker) (min_score : ℚ) :
    List WorkerMatchScore :=
  workers.filterMap fun worker =>
    if matchTotalScore job worker ≥ min_score then
      some { worker := worker
             score := matchTotalScore job worker
             matching_skills :=
               worker.skills.filter fun skill => job.requirements.contains skill }
    else none

/-- The comparator of `matching.rs` line 75,
`|a, b| b.score.partial_cmp(&a.score).unwrap()`, as the Boolean
"may precede" relation of a stable sort: `a` may precede `b` exactly when the
comparator does not return `Greater`, i.e. when `b.score ≤ a.score`. -/
def scoreDescLE (a b : WorkerMatchScore) : Bool :=
  decide (b.score ≤ a.score)

/-- The comparator of `matching.rs` line 151, same comparator for the other
direction. -/
def jobScoreDescLE (a b : JobMatchScore) : Bool :=
  decide (b.score ≤ a.score)

/-- The pure core of `find_matches` (`matching.rs` lines 49-90): defaults
(`min_score` 0, `limit` 50 capped at 100), filter, stable sort descending by
score, truncate, and assemble the response.  `match_count` is the length of
the *truncated* list (`matched_workers.len()`). -/
def find_matches_core (job : JobPosting) (workers : List Worker)
    (query : MatchQuery) : JobMatchResponse :=
  let min_score := query.min_score.getD 0
  let limit := min (query.limit.getD 50) 100
  let match_scores :=
    ((matchScoresFor job workers min_score).mergeSort scoreDescLE).take limit
  let matched_workers := match_scores.map WorkerMatchScore.worker
  { job := job
    matched_workers := matched_workers
    match_count := matched_workers.length
    match_scores := match_scores }

/-- Handler `find_matches` (`matching.rs` lines 20-93).  The anchor-job lookup
(`fetch_optional` + `ok_or(AppError::NotFound)`) is represented by the
`Option JobPosting` argument supplied by the storage collaborator. -/
def find_matches (job_opt : Option JobPosting) (workers : List Worker)
    (query : MatchQuery) : Except AppError JobMatchResponse :=
  match job_opt with
  | none => .error .NotFound
  | some job => .ok (find_matches_core job workers query)

/-- The filtering loop of `find_jobs_for_worker` (`matching.rs` lines
128-148): for each job compute the composite score, keep the job when the
score reaches `min_score`, and annotate it with its requirements that occur
among the worker skills, in the order of the job requirements list. -/
def jobMatchesFor (worker : Worker) (jobs : List JobPosting) (min_score : ℚ) :
    List JobMatchScore :=
  jobs.filterMap fun job =>
    if jobsTotalScore worker job ≥ min_score then
      some { job := job
             score := jobsTotalScore worker job
             matching_skills :=
               job.requirements.filter fun req => worker.skills.contains req }
    else none

/-- The pure core of `find_jobs_for_worker` (`matching.rs` lines 125-166). -/
def find_jobs_for_worker_core (worker : Worker) (jobs : List JobPosting)
    (query : MatchQuery) : WorkerJobsResponse :=
  let min_score := query.min_score.getD 0
  let limit := min (query.limit.getD 50) 100
  let job_matches :=
    ((jobMatchesFor worker jobs min_score).mergeSort jobScoreDescLE).take limit
  let matched_jobs := job_matches.map JobMatchScore.job
  { worker := worker
    matched_jobs := matched_jobs
    match_count := matched_jobs.length
    job_matches := job_matches }

/-- Handler `find_jobs_for_worker` (`matching.rs` lines 95-169), anchor lookup as an
`Option Worker`. -/
def find_jobs_for_worker (worker_opt : Option Worker) (jobs : List JobPosting)
    (query : MatchQuery) : Except AppError WorkerJobsResponse :=
  match worker_opt with
  | none => .error .NotFound
  | some worker => .ok (find_jobs_for_worker_core worker jobs query)

/-- Spec-side definition (§4.5, glossary): the number of survivors, i.e. of
pool elements whose composite score meets or exceeds `min_score`, for the
Job→Workers direction. -/
def survivorCountSpec (job : JobPosting) (workers : List Worker)
    (min_score : ℚ) : Nat :=
  workers.countP fun w => decide (matchTotalScore job w ≥ min_score)

/-- Spec-side definition (§4.5, glossary): the number of survivors for the
Worker→Jobs direction. -/
def jobSurvivorCountSpec (worker : Worker) (jobs : List JobPosting)
    (min_score : ℚ) : Nat :=
  jobs.countP fun j => decide (jobsTotalScore worker j ≥ min_score)

/-- A model of `f64` values as they matter to the sort comparator: a value is
either a finite rational or NaN (the one kind of value `f64::partial_cmp`
declines to order; infinities are ordered by it and are irrelevant here). -/
inductive F64 where
  | nan : F64
  | finite : ℚ → F64
deriving DecidableEq, Repr

/-- Model of `f64::partial_cmp`: a defined ordering on two finite values, no ordering
(`none`) as soon as one operand is NaN.  The Rust comparator at
`matching.rs` lines 75 and 151 calls `.unwrap()` on this result, which panics
on `none`. -/
def F64.pcmp : F64 → F64 → Option Ordering
  | .finite a, .finite b => some (compare a b)
  | _, _ => none

/-- The score comparator of `matching.rs` lines 75/151 before the `.unwrap()`:
`|a, b| b.score.partial_cmp(&a.score)`, over the `F64` model. -/
def sortComparator (a b : F64) : Option Ordering :=
  F64.pcmp b a

/-- Example job used by concrete witnesses: requires Go, SQL and Docker
(spec §8 scenario). -/
def exJob : JobPosting :=
  { id := 1
    client_id := 1
    title := "Backend Engineer"
    description := ""
    requirements := ["Go", "SQL", "Docker"]
    salary_range := none
    location := ""
    job_type := ""
    is_active := true
    created_at := 0
    updated_at := none }

/-- Example job with a single requirement, for tie-breaking examples. -/
def exJob1 : JobPosting :=
  { id := 2
    client_id := 1
    title := "Go Developer"
    description := ""
    requirements := ["Go"]
    salary_range := none
    location := ""
    job_type := ""
    is_active := true
    created_at := 0
    updated_at := none }

/-- Example worker A of the spec §8 scenario: Go and SQL, 4 years. -/
def exWA : Worker :=
  { id := 10
    name := "A"
    email := "a@example.com"
    phone := none
    skills := ["Go", "SQL"]
    experience_years := 4
    resume_url := none
    created_at := 0
    updated_at := none }

/-- Example worker B of the spec §8 scenario: Go, SQL and Docker, 1 year. -/
def exWB : Worker :=
  { id := 11
    name := "B"
    email := "b@example.com"
    phone := none
    skills := ["Go", "SQL", "Docker"]
    experience_years := 1
    resume_url := none
    created_at := 0
    updated_at := none }

/-- A clone of worker A with only the Go skill and 3 years, used where two
workers with identical scores are needed. -/
def exWGo : Worker :=
  { id := 12
    name := "C"
    email := "c@example.com"
    phone := none
    skills := ["Go"]
    experience_years := 3
    resume_url := none
    created_at := 0
    updated_at := none }

/-- A second worker with the same skills and experience as `exWGo`, hence the
same composite score. -/
def exWGo2 : Worker :=
  { id := 13
    name := "D"
    email := "d@example.com"
    phone := none
    skills := ["Go"]
    experience_years := 3
    resume_url := none
    created_at := 0
    updated_at := none }


/-- Query with no parameters supplied (defaults apply). -/
def exQuery : MatchQuery :=
  { min_score := none
    limit := none }

/-- Query with `limit = 1`. -/
def exQueryLim1 : MatchQuery :=
  { min_score := none
    limit := some 1 }

/-- Query with `min_score = 200`, above every attainable score. -/
def exQueryHigh : MatchQuery :=
  { min_score := some 200
    limit := none }

/-- The match-score record the engine produces for `exWGo` against
`exJob1`. -/
def exMS : WorkerMatchScore :=
  { worker := exWGo
    score := matchTotalScore exJob1 exWGo
    matching_skills := ["Go"] }

/-- The match-score record the engine produces for `exWGo2` against
`exJob1`. -/
def exMS2 : WorkerMatchScore :=
  { worker := exWGo2
    score := matchTotalScore exJob1 exWGo2
    matching_skills := ["Go"] }

/-- The match-score record the engine produces for `exJob1` against the
anchor worker `exWGo` in the Worker→Jobs direction. -/
def exJM : JobMatchScore :=
  { job := exJob1
    score := jobsTotalScore exWGo exJob1
    matching_skills := ["Go"] }

/-! ### Helper lemmas -/

/-- Evaluation rule for `calculate_skill_match_score` on a non-empty required
list: the score is the intersection cardinality over the list length, times
100. -/
theorem skill_match_eval (m n : ℕ) {js ws : List String}
    (hne : js.isEmpty = false)
    (hm : (js.toFinset ∩ ws.toFinset).card = m) (hn : js.length = n) :
    calculate_skill_match_score js ws = (m : ℚ) / (n : ℚ) * 100 := by
  simp only [calculate_skill_match_score, hne, Bool.false_eq_true, if_false, hm, hn]

/-- Evaluation rule for `calculate_experience_score` when the requirement is
met. -/
theorem exp_score_of_ge {y r : ℤ} (h : y ≥ r) :
    calculate_experience_score y r = 100 := by
  simp only [calculate_experience_score, if_pos h]

/-- Evaluation rule for `calculate_experience_score` when the requirement is
not met. -/
theorem exp_score_of_lt {y r : ℤ} (h : ¬ y ≥ r) :
    calculate_experience_score y r = (y : ℚ) / ((max r 1 : ℤ) : ℚ) * 100 := by
  simp only [calculate_experience_score, if_neg h]

/-- The skill score is never negative. -/
theorem skill_score_nonneg (js ws : List String) :
    0 ≤ calculate_skill_match_score js ws := by
  simp only [calculate_skill_match_score]
  split
  · exact le_refl 0
  · positivity

/-- The skill score never exceeds 100. -/
theorem skill_score_le_100 (js ws : List String) :
    calculate_skill_match_score js ws ≤ 100 := by
  simp only [calculate_skill_match_score]
  split
  · norm_num
  · rename_i h
    have hne : js ≠ [] := by simpa [List.isEmpty_iff] using h
    have hpos : (0 : ℚ) < (js.length : ℚ) := by
      exact_mod_cast List.length_pos.mpr hne
    have hcard : ((js.toFinset ∩ ws.toFinset).card : ℚ) ≤ (js.length : ℚ) := by
      exact_mod_cast le_trans (Finset.card_le_card Finset.inter_subset_left)
        js.toFinset_card_le
    have hdiv : ((js.toFinset ∩ ws.toFinset).card : ℚ) / (js.length : ℚ) ≤ 1 :=
      (div_le_one hpos).mpr hcard
    calc ((js.toFinset ∩ ws.toFinset).card : ℚ) / (js.length : ℚ) * 100
        ≤ 1 * 100 := mul_le_mul_of_nonneg_right hdiv (by norm_num)
      _ = 100 := by norm_num

/-- The experience score is never negative for non-negative actual years. -/
theorem exp_score_nonneg {y : ℤ} (r : ℤ) (hy : 0 ≤ y) :
    0 ≤ calculate_experience_score y r := by
  simp only [calculate_experience_score]
  split
  · norm_num
  · have h1 : (0 : ℚ) ≤ (y : ℚ) := by exact_mod_cast hy
    have h2 : (0 : ℚ) ≤ ((max r 1 : ℤ) : ℚ) := by
      have : (0 : ℤ) ≤ max r 1 := le_trans (by norm_num) (le_max_right r 1)
      exact_mod_cast this
    positivity

/-- The experience score never exceeds 100. -/
theorem exp_score_le_100 (y r : ℤ) :
    calculate_experience_score y r ≤ 100 := by
  simp only [calculate_experience_score]
  split
  · exact le_refl 100
  · rename_i h
    have hyr : y < r := lt_of_not_ge h
    have hmax : (0 : ℤ) < max r 1 := lt_of_lt_of_le (by norm_num) (le_max_right r 1)
    have hpos : (0 : ℚ) < ((max r 1 : ℤ) : ℚ) := by exact_mod_cast hmax
    have hle : (y : ℚ) ≤ ((max r 1 : ℤ) : ℚ) := by
      have : y ≤ max r 1 := le_max_of_le_left (le_of_lt hyr)
      exact_mod_cast this
    have hdiv : (y : ℚ) / ((max r 1 : ℤ) : ℚ) ≤ 1 := (div_le_one hpos).mpr hle
    calc (y : ℚ) / ((max r 1 : ℤ) : ℚ) * 100
        ≤ 1 * 100 := mul_le_mul_of_nonneg_right hdiv (by norm_num)
      _ = 100 := by norm_num

/-- Composite score bounds for the Job→Workers direction. -/
theorem matchTotalScore_bounds (job : JobPosting) (w : Worker)
    (hw : 0 ≤ w.experience_years) :
    0 ≤ matchTotalScore job w ∧ matchTotalScore job w ≤ 100 := by
  have h1 := skill_score_nonneg job.requirements w.skills
  have h2 := skill_score_le_100 job.requirements w.skills
  have h3 := exp_score_nonneg 3 hw
  have h4 := exp_score_le_100 w.experience_years 3
  constructor
  · simp only [matchTotalScore]
    nlinarith
  · simp only [matchTotalScore]
    nlinarith

/-- The two direction-specific composite-score computations agree. -/
theorem jobsTotalScore_eq (w : Worker) (j : JobPosting) :
    jobsTotalScore w j = matchTotalScore j w := rfl

/-! ### Claim theorems -/

/-- C3: for every `actualYears ≥ 0` and every `requiredYears`, the experience
scorer returns 100 whenever the actual years reach the original unclamped
requirement, and otherwise the ratio of the actual years to the requirement
clamped below by 1, times 100. -/
theorem experience_score_spec (y r : ℤ) (hy : 0 ≤ y) :
    (y ≥ r → calculate_experience_score y r = 100) ∧
    (y < r → calculate_experience_score y r
        = (y : ℚ) / ((max r 1 : ℤ) : ℚ) * 100) := by
  exact ⟨fun h => exp_score_of_ge h, fun h => exp_score_of_lt (not_le.mpr h)⟩

/-- Witness for C3 at `actualYears = 5, requiredYears = 3` (saturated branch)
and `actualYears = 1, requiredYears = 3` (ratio branch). -/
theorem experience_score_spec_witness :
    ((0 : ℤ) ≤ 5 ∧ calculate_experience_score 5 3 = 100) ∧
    ((0 : ℤ) ≤ 1 ∧ (1 : ℤ) < 3 ∧ calculate_experience_score 1 3
        = (1 : ℚ) / ((max (3 : ℤ) 1 : ℤ) : ℚ) * 100) := by
  refine ⟨⟨by norm_num, (experience_score_spec 5 3 (by norm_num)).1 (by norm_num)⟩,
    ⟨by norm_num, by norm_num, (experience_score_spec 1 3 (by norm_num)).2 (by norm_num)⟩⟩

/-- C2: on genuine skill sets (duplicate-free lists) the skill scorer returns
the intersection cardinality over the cardinality of the required set, times
100; an empty required set scores 0; the result always lies in [0, 100]. -/
theorem skill_match_score_spec (req cand : List String)
    (hreq : req.Nodup) (hcand : cand.Nodup) :
    (req = [] → calculate_skill_match_score req cand = 0) ∧
    (req ≠ [] → calculate_skill_match_score req cand
        = ((req.toFinset ∩ cand.toFinset).card : ℚ) / (req.toFinset.card : ℚ) * 100) ∧
    0 ≤ calculate_skill_match_score req cand ∧
    calculate_skill_match_score req cand ≤ 100 := by
  refine ⟨?_, ?_, skill_score_nonneg req cand, skill_score_le_100 req cand⟩
  · intro h
    subst h
    rfl
  · intro h
    have hne : req.isEmpty = false := by simpa [List.isEmpty_iff] using h
    rw [List.toFinset_card_of_nodup hreq]
    exact skill_match_eval _ _ hne rfl rfl

/-- Witness for C2 at `required = [Go, SQL]`, `candidate = [Go]`: both lists
are duplicate-free and the score is the stated ratio. -/
theorem skill_match_score_spec_witness :
    (["Go", "SQL"] : List String).Nodup ∧ (["Go"] : List String).Nodup ∧
    (["Go", "SQL"] : List String) ≠ [] ∧
    calculate_skill_match_score ["Go", "SQL"] ["Go"]
      = (((["Go", "SQL"] : List String).toFinset ∩ (["Go"] : List String).toFinset).card : ℚ)
        / ((["Go", "SQL"] : List String).toFinset.card : ℚ) * 100 :=
  ⟨by decide, by decide, by decide,
    (skill_match_score_spec ["Go", "SQL"] ["Go"] (by decide) (by decide)).2.1 (by decide)⟩

/-- C5 counterexample: appending a duplicate tag to the *required* input does
change the score, because the divisor is the required list length including
duplicates.  With `required = [Go]` and `candidate = [Go]` the score is 100,
but after appending the duplicate `Go` to the required list it drops to 50. -/
theorem skill_dup_counterexample :
    ¬ (calculate_skill_match_score (["Go"] ++ ["Go"]) ["Go"]
        = calculate_skill_match_score ["Go"] ["Go"]) := by
  have h1 : calculate_skill_match_score (["Go"] ++ ["Go"]) ["Go"] = (1 : ℚ) / (2 : ℚ) * 100 :=
    skill_match_eval 1 2 (by decide) (by decide) (by decide)
  have h2 : calculate_skill_match_score ["Go"] ["Go"] = (1 : ℚ) / (1 : ℚ) * 100 :=
    skill_match_eval 1 1 (by decide) (by decide) (by decide)
  rw [h1, h2]
  norm_num

/-- C5 (amended): appending a duplicate of a tag already present to the
*candidate* input leaves the score unchanged; only the candidate side enjoys
duplicate-invariance, since the denominator is the required list length. -/
theorem skill_dup_candidate_invariant (req cand : List String) (x : String)
    (hx : x ∈ cand) :
    calculate_skill_match_score req (cand ++ [x])
      = calculate_skill_match_score req cand := by
  have h : (cand ++ [x]).toFinset = cand.toFinset := by
    rw [List.toFinset_append]
    simp [Finset.union_eq_left, Finset.singleton_subset_iff, List.mem_toFinset, hx]
  simp only [calculate_skill_match_score, h]

/-- Witness for the amended C5: appending the duplicate `Go` to the candidate
list `[Go]` leaves the score against `[Go, SQL]` unchanged. -/
theorem skill_dup_candidate_invariant_witness :
    ("Go" ∈ (["Go"] : List String)) ∧
    calculate_skill_match_score ["Go", "SQL"] (["Go"] ++ ["Go"])
      = calculate_skill_match_score ["Go", "SQL"] ["Go"] :=
  ⟨by decide, skill_dup_candidate_invariant ["Go", "SQL"] ["Go"] "Go" (by decide)⟩

/-- C10: both match directions assign the identical composite score to a
(job, worker) pair: each computes the skill score from the job requirements
against the worker skills and the experience score from the worker experience
years against the constant 3, with weights 0.7 and 0.3. -/
theorem match_directions_same_score (job : JobPosting) (worker : Worker) :
    matchTotalScore job worker = jobsTotalScore worker job ∧
    matchTotalScore job worker
      = calculate_skill_match_score job.requirements worker.skills * (7/10)
        + calculate_experience_score worker.experience_years 3 * (3/10) :=
  ⟨rfl, rfl⟩

/-- C8: behaviour of the sort comparator of `matching.rs` lines 75/151.  The
comparator first computes `b.score.partial_cmp(&a.score)`; on any pair
involving a NaN score this is `none`, and the `.unwrap()` panics, so the
comparison is *not* a total order with a defined placement for non-finite
values.  On finite scores it is the defined (reversed) ordering. -/
theorem sort_comparator_nan_none :
    sortComparator F64.nan (F64.finite 0) = none ∧
    sortComparator (F64.finite 0) F64.nan = none ∧
    ∀ a b : ℚ, sortComparator (F64.finite a) (F64.finite b) = some (compare b a) :=
  ⟨rfl, rfl, fun _ _ => rfl⟩

/-- Concrete score: `exWGo` against `exJob1` scores exactly 100. -/
theorem matchTotalScore_exJob1_exWGo : matchTotalScore exJob1 exWGo = 100 := by
  have h1 : calculate_skill_match_score exJob1.requirements exWGo.skills
      = (1 : ℚ) / (1 : ℚ) * 100 :=
    skill_match_eval 1 1 (by decide) (by decide) (by decide)
  have h2 : calculate_experience_score exWGo.experience_years 3 = 100 :=
    exp_score_of_ge (by decide)
  simp only [matchTotalScore, h1, h2]
  norm_num

/-- Concrete score: `exWGo2` against `exJob1` scores exactly 100. -/
theorem matchTotalScore_exJob1_exWGo2 : matchTotalScore exJob1 exWGo2 = 100 := by
  have h1 : calculate_skill_match_score exJob1.requirements exWGo2.skills
      = (1 : ℚ) / (1 : ℚ) * 100 :=
    skill_match_eval 1 1 (by decide) (by decide) (by decide)
  have h2 : calculate_experience_score exWGo2.experience_years 3 = 100 :=
    exp_score_of_ge (by decide)
  simp only [matchTotalScore, h1, h2]
  norm_num

/-- Unfolding rule: the ranked list of `find_matches_core`. -/
theorem match_scores_eq (job : JobPosting) (workers : List Worker)
    (query : MatchQuery) :
    (find_matches_core job workers query).match_scores
      = ((matchScoresFor job workers (query.min_score.getD 0)).mergeSort
          scoreDescLE).take (min (query.limit.getD 50) 100) := rfl

/-- Unfolding rule: the ranked list of `find_jobs_for_worker_core`. -/
theorem job_matches_eq (worker : Worker) (jobs : List JobPosting)
    (query : MatchQuery) :
    (find_jobs_for_worker_core worker jobs query).job_matches
      = ((jobMatchesFor worker jobs (query.min_score.getD 0)).mergeSort
          jobScoreDescLE).take (min (query.limit.getD 50) 100) := rfl

/-- The reported count is the length of the truncated ranked list. -/
theorem match_count_eq_length (job : JobPosting) (workers : List Worker)
    (query : MatchQuery) :
    (find_matches_core job workers query).match_count
      = (find_matches_core job workers query).match_scores.length := by
  simp [find_matches_core]

/-- The reported count is the length of the truncated ranked list
(Worker→Jobs direction). -/
theorem job_match_count_eq_length (worker : Worker) (jobs : List JobPosting)
    (query : MatchQuery) :
    (find_jobs_for_worker_core worker jobs query).match_count
      = (find_jobs_for_worker_core worker jobs query).job_matches.length := by
  simp [find_jobs_for_worker_core]

/-- Membership in the filtered score list, Job→Workers direction. -/
theorem mem_matchScoresFor {job : JobPosting} {workers : List Worker} {m : ℚ}
    {r : WorkerMatchScore} :
    r ∈ matchScoresFor job workers m ↔
      ∃ w ∈ workers, matchTotalScore job w ≥ m ∧
        r = { worker := w
              score := matchTotalScore job w
              matching_skills :=
                w.skills.filter fun skill => job.requirements.contains skill } := by
  simp only [matchScoresFor, List.mem_filterMap]
  constructor
  · rintro ⟨w, hw, hsome⟩
    by_cases h : matchTotalScore job w ≥ m
    · rw [if_pos h] at hsome
      exact ⟨w, hw, h, (Option.some_inj.mp hsome).symm⟩
    · rw [if_neg h] at hsome
      exact absurd hsome (by simp)
  · rintro ⟨w, hw, h, rfl⟩
    exact ⟨w, hw, by rw [if_pos h]⟩

/-- Membership in the filtered score list, Worker→Jobs direction. -/
theorem mem_jobMatchesFor {worker : Worker} {jobs : List JobPosting} {m : ℚ}
    {r : JobMatchScore} :
    r ∈ jobMatchesFor worker jobs m ↔
      ∃ j ∈ jobs, jobsTotalScore worker j ≥ m ∧
        r = { job := j
              score := jobsTotalScore worker j
              matching_skills :=
                j.requirements.filter fun req => worker.skills.contains req } := by
  simp only [jobMatchesFor, List.mem_filterMap]
  constructor
  · rintro ⟨j, hj, hsome⟩
    by_cases h : jobsTotalScore worker j ≥ m
    · rw [if_pos h] at hsome
      exact ⟨j, hj, h, (Option.some_inj.mp hsome).symm⟩
    · rw [if_neg h] at hsome
      exact absurd hsome (by simp)
  · rintro ⟨j, hj, h, rfl⟩
    exact ⟨j, hj, by rw [if_pos h]⟩

/-- Every element of the ranked output of `find_matches_core` comes from a
pool worker that survived the threshold. -/
theorem mem_match_scores {job : JobPosting} {workers : List Worker}
    {query : MatchQuery} {r : WorkerMatchScore}
    (hr : r ∈ (find_matches_core job workers query).match_scores) :
    ∃ w ∈ workers, matchTotalScore job w ≥ query.min_score.getD 0 ∧
      r = { worker := w
            score := matchTotalScore job w
            matching_skills :=
              w.skills.filter fun skill => job.requirements.contains skill } := by
  rw [match_scores_eq] at hr
  have hr2 := List.mem_of_mem_take hr
  rw [List.mem_mergeSort] at hr2
  exact mem_matchScoresFor.mp hr2

/-- Every element of the ranked output of `find_jobs_for_worker_core` comes
from a pool job that survived the threshold. -/
theorem mem_job_matches {worker : Worker} {jobs : List JobPosting}
    {query : MatchQuery} {r : JobMatchScore}
    (hr : r ∈ (find_jobs_for_worker_core worker jobs query).job_matches) :
    ∃ j ∈ jobs, jobsTotalScore worker j ≥ query.min_score.getD 0 ∧
      r = { job := j
            score := jobsTotalScore worker j
            matching_skills :=
              j.requirements.filter fun req => worker.skills.contains req } := by
  rw [job_matches_eq] at hr
  have hr2 := List.mem_of_mem_take hr
  rw [List.mem_mergeSort] at hr2
  exact mem_jobMatchesFor.mp hr2

/-- Counting rule for a filterMap whose function is a guarded `some`. -/
theorem length_filterMap_ite {α β : Type} (p : α → Prop) [DecidablePred p]
    (g : α → β) (l : List α) :
    (l.filterMap fun a => if p a then some (g a) else none).length
      = l.countP fun a => decide (p a) := by
  induction l with
  | nil => rfl
  | cons a t ih =>
    by_cases h : p a
    · simp [h, ih]
    · simp [h, ih]

/-- The filtered list is exactly as long as the number of survivors. -/
theorem length_matchScoresFor (job : JobPosting) (workers : List Worker)
    (m : ℚ) :
    (matchScoresFor job workers m).length = survivorCountSpec job workers m := by
  unfold matchScoresFor survivorCountSpec
  exact length_filterMap_ite (fun w => matchTotalScore job w ≥ m) _ workers

/-- The filtered list is exactly as long as the number of survivors
(Worker→Jobs direction). -/
theorem length_jobMatchesFor (worker : Worker) (jobs : List JobPosting)
    (m : ℚ) :
    (jobMatchesFor worker jobs m).length = jobSurvivorCountSpec worker jobs m := by
  unfold jobMatchesFor jobSurvivorCountSpec
  exact length_filterMap_ite (fun j => jobsTotalScore worker j ≥ m) _ jobs

/-- The filtered list for the one-worker example pool. -/
theorem matchScoresFor_exWGo :
    matchScoresFor exJob1 [exWGo] (exQuery.min_score.getD 0) = [exMS] := by
  have h : matchTotalScore exJob1 exWGo ≥ (exQuery.min_score.getD 0) := by
    rw [matchTotalScore_exJob1_exWGo]
    norm_num [exQuery]
  simp only [matchScoresFor, List.filterMap_cons, List.filterMap_nil, if_pos h]
  rfl

/-- Membership of the concrete record `exMS` in the concrete engine run. -/
theorem exMS_mem :
    exMS ∈ (find_matches_core exJob1 [exWGo] exQuery).match_scores := by
  rw [match_scores_eq, matchScoresFor_exWGo]
  simp [exQuery]

/-- C6: for pools of workers with non-negative experience years, every
composite score attached to a ranked result lies within [0, 100] (finiteness
is inherent to the exact rational model of the score arithmetic). -/
theorem result_scores_bounded (job : JobPosting) (workers : List Worker)
    (worker : Worker) (jobs : List JobPosting) (query : MatchQuery)
    (hw : ∀ w ∈ workers, 0 ≤ w.experience_years)
    (hx : 0 ≤ worker.experience_years) :
    (∀ r ∈ (find_matches_core job workers query).match_scores,
        0 ≤ r.score ∧ r.score ≤ 100) ∧
    (∀ r ∈ (find_jobs_for_worker_core worker jobs query).job_matches,
        0 ≤ r.score ∧ r.score ≤ 100) := by
  constructor
  · intro r hr
    obtain ⟨w, hwmem, hge, rfl⟩ := mem_match_scores hr
    exact matchTotalScore_bounds job w (hw w hwmem)
  · intro r hr
    obtain ⟨j, hjmem, hge, rfl⟩ := mem_job_matches hr
    exact matchTotalScore_bounds j worker hx

/-- Witness for C6 on the concrete one-worker run. -/
theorem result_scores_bounded_witness :
    0 ≤ exWGo.experience_years ∧ 0 ≤ exMS.score ∧ exMS.score ≤ 100 := by
  refine ⟨by decide, ?_, ?_⟩ <;>
  · have h := (result_scores_bounded exJob1 [exWGo] exWGo [] exQuery
      (by intro w hw; rw [List.mem_singleton] at hw; subst hw; decide)
      (by decide)).1 exMS exMS_mem
    first
    | exact h.1
    | exact h.2

/-- C7: each ranked result is annotated with exactly the pool-entity skills
that occur in the anchor requirement set, in the pool-entity enumeration
order; every annotated skill belongs to both the anchor set and the
pool-entity skill set. -/
theorem matching_skills_spec (job : JobPosting) (workers : List Worker)
    (worker : Worker) (jobs : List JobPosting) (query : MatchQuery) :
    (∀ r ∈ (find_matches_core job workers query).match_scores,
        r.matching_skills
          = r.worker.skills.filter (fun skill => job.requirements.contains skill) ∧
        ∀ s ∈ r.matching_skills, s ∈ job.requirements ∧ s ∈ r.worker.skills) ∧
    (∀ r ∈ (find_jobs_for_worker_core worker jobs query).job_matches,
        r.matching_skills
          = r.job.requirements.filter (fun req => worker.skills.contains req) ∧
        ∀ s ∈ r.matching_skills, s ∈ worker.skills ∧ s ∈ r.job.requirements) := by
  constructor
  · intro r hr
    obtain ⟨w, hwmem, hge, rfl⟩ := mem_match_scores hr
    refine ⟨rfl, ?_⟩
    intro s hs
    rw [List.mem_filter] at hs
    exact ⟨by simpa using hs.2, hs.1⟩
  · intro r hr
    obtain ⟨j, hjmem, hge, rfl⟩ := mem_job_matches hr
    refine ⟨rfl, ?_⟩
    intro s hs
    rw [List.mem_filter] at hs
    exact ⟨by simpa using hs.2, hs.1⟩

/-- Witness for C7 on the concrete one-worker run. -/
theorem matching_skills_spec_witness :
    exMS.matching_skills
      = exMS.worker.skills.filter (fun skill => exJob1.requirements.contains skill) :=
  ((matching_skills_spec exJob1 [exWGo] exWGo [] exQuery).1 exMS exMS_mem).1

/-- C9: each entry point fails exactly when the anchor cannot be resolved
(`NotFound`); with a resolved anchor it always succeeds; an empty pool, or a
threshold excluding every pool element, yields an empty result and a zero
count rather than a failure. -/
theorem anchor_resolution_spec :
    (∀ (workers : List Worker) (query : MatchQuery),
        find_matches none workers query = .error .NotFound) ∧
    (∀ (job : JobPosting) (workers : List Worker) (query : MatchQuery),
        find_matches (some job) workers query
          = .ok (find_matches_core job workers query)) ∧
    (∀ (job : JobPosting) (query : MatchQuery),
        (find_matches_core job [] query).match_scores = [] ∧
        (find_matches_core job [] query).match_count = 0) ∧
    (∀ (job : JobPosting) (workers : List Worker) (query : MatchQuery),
        (∀ w ∈ workers, matchTotalScore job w < query.min_score.getD 0) →
        (find_matches_core job workers query).match_scores = [] ∧
        (find_matches_core job workers query).match_count = 0) ∧
    (∀ (jobs : List JobPosting) (query : MatchQuery),
        find_jobs_for_worker none jobs query = .error .NotFound) ∧
    (∀ (worker : Worker) (jobs : List JobPosting) (query : MatchQuery),
        find_jobs_for_worker (some worker) jobs query
          = .ok (find_jobs_for_worker_core worker jobs query)) ∧
    (∀ (worker : Worker) (query : MatchQuery),
        (find_jobs_for_worker_core worker [] query).job_matches = [] ∧
        (find_jobs_for_worker_core worker [] query).match_count = 0) ∧
    (∀ (worker : Worker) (jobs : List JobPosting) (query : MatchQuery),
        (∀ j ∈ jobs, jobsTotalScore worker j < query.min_score.getD 0) →
        (find_jobs_for_worker_core worker jobs query).job_matches = [] ∧
        (find_jobs_for_worker_core worker jobs query).match_count = 0) := by
  refine ⟨fun _ _ => rfl, fun _ _ _ => rfl, ?_, ?_, fun _ _ => rfl, fun _ _ _ => rfl, ?_, ?_⟩
  · intro job query
    constructor <;> simp [find_matches_core, matchScoresFor]
  · intro job workers query h
    have hnil : matchScoresFor job workers (query.min_score.getD 0) = [] := by
      unfold matchScoresFor
      rw [List.filterMap_eq_nil_iff]
      intro w hwmem
      rw [if_neg (not_le.mpr (h w hwmem))]
    constructor <;> simp [find_matches_core, hnil]
  · intro worker query
    constructor <;> simp [find_jobs_for_worker_core, jobMatchesFor]
  · intro worker jobs query h
    have hnil : jobMatchesFor worker jobs (query.min_score.getD 0) = [] := by
      unfold jobMatchesFor
      rw [List.filterMap_eq_nil_iff]
      intro j hjmem
      rw [if_neg (not_le.mpr (h j hjmem))]
    constructor <;> simp [find_jobs_for_worker_core, hnil]

/-- Witness for C9: a threshold of 200 excludes the only pool worker and the
engine returns an empty ranked list and a zero count. -/
theorem anchor_resolution_spec_witness :
    matchTotalScore exJob1 exWGo < exQueryHigh.min_score.getD 0 ∧
    (find_matches_core exJob1 [exWGo] exQueryHigh).match_scores = [] ∧
    (find_matches_core exJob1 [exWGo] exQueryHigh).match_count = 0 := by
  have hlt : matchTotalScore exJob1 exWGo < exQueryHigh.min_score.getD 0 := by
    rw [matchTotalScore_exJob1_exWGo]
    norm_num [exQueryHigh, Option.getD_some]
  have h := anchor_resolution_spec.2.2.2.1 exJob1 [exWGo] exQueryHigh
    (by intro w hw; rw [List.mem_singleton] at hw; subst hw; exact hlt)
  exact ⟨hlt, h.1, h.2⟩

/-- C4 counterexample: with two surviving workers and `limit = 1` the engine
reports `match_count = 1` although the number of survivors is 2 — the count
is computed after truncation (`matching.rs` lines 78 and 88), not the
survivor count. -/
theorem match_count_counterexample :
    (find_matches_core exJob1 [exWGo, exWGo2] exQueryLim1).match_count = 1 ∧
    survivorCountSpec exJob1 [exWGo, exWGo2] (exQueryLim1.min_score.getD 0) = 2 ∧
    (find_matches_core exJob1 [exWGo, exWGo2] exQueryLim1).match_count
      ≠ survivorCountSpec exJob1 [exWGo, exWGo2] (exQueryLim1.min_score.getD 0) := by
  have h1 : matchTotalScore exJob1 exWGo ≥ exQueryLim1.min_score.getD 0 := by
    rw [matchTotalScore_exJob1_exWGo]
    norm_num [exQueryLim1]
  have h2 : matchTotalScore exJob1 exWGo2 ≥ exQueryLim1.min_score.getD 0 := by
    rw [matchTotalScore_exJob1_exWGo2]
    norm_num [exQueryLim1]
  have hlist : matchScoresFor exJob1 [exWGo, exWGo2] (exQueryLim1.min_score.getD 0)
      = [exMS, exMS2] := by
    simp only [matchScoresFor, List.filterMap_cons, List.filterMap_nil,
      if_pos h1, if_pos h2]
    rfl
  have hsorted : List.Pairwise (fun a b => scoreDescLE a b = true) [exMS, exMS2] := by
    refine List.Pairwise.cons ?_ (by simp)
    intro b hb
    rw [List.mem_singleton] at hb
    subst hb
    simp [scoreDescLE, exMS, exMS2, matchTotalScore_exJob1_exWGo,
      matchTotalScore_exJob1_exWGo2]
  have hms : (find_matches_core exJob1 [exWGo, exWGo2] exQueryLim1).match_scores
      = [exMS] := by
    rw [match_scores_eq, hlist, List.mergeSort_of_sorted hsorted]
    simp [exQueryLim1]
  have hcount : (find_matches_core exJob1 [exWGo, exWGo2] exQueryLim1).match_count = 1 := by
    rw [match_count_eq_length, hms]
    rfl
  have hsurv : survivorCountSpec exJob1 [exWGo, exWGo2]
      (exQueryLim1.min_score.getD 0) = 2 := by
    unfold survivorCountSpec
    rw [List.countP_cons, List.countP_cons, List.countP_nil]
    rw [decide_eq_true h1, decide_eq_true h2]
    rfl
  exact ⟨hcount, hsurv, by rw [hcount, hsurv]; norm_num⟩

/-- C4 (amended): the reported count equals the number of survivors capped by
the effective limit — the length of the truncated ranked list — in both
directions. -/
theorem match_count_eq_min (job : JobPosting) (workers : List Worker)
    (worker : Worker) (jobs : List JobPosting) (query : MatchQuery) :
    (find_matches_core job workers query).match_count
      = min (survivorCountSpec job workers (query.min_score.getD 0))
          (min (query.limit.getD 50) 100) ∧
    (find_jobs_for_worker_core worker jobs query).match_count
      = min (jobSurvivorCountSpec worker jobs (query.min_score.getD 0))
          (min (query.limit.getD 50) 100) := by
  constructor
  · rw [match_count_eq_length, match_scores_eq, List.length_take,
      List.length_mergeSort, length_matchScoresFor]
    exact Nat.min_comm _ _
  · rw [job_match_count_eq_length, job_matches_eq, List.length_take,
      List.length_mergeSort, length_jobMatchesFor]
    exact Nat.min_comm _ _

/-- A merge sort under the descending-by-key comparator yields a list whose
keys are pairwise descending. -/
theorem pairwise_desc_mergeSort {α : Type} (f : α → ℚ) (l : List α) :
    (l.mergeSort fun a b => decide (f b ≤ f a)).Pairwise fun a b => f b ≤ f a := by
  have htrans : ∀ a b c : α, decide (f b ≤ f a) = true → decide (f c ≤ f b) = true →
      decide (f c ≤ f a) = true := by
    intro a b c h1 h2
    rw [decide_eq_true_eq] at *
    exact le_trans h2 h1
  have htotal : ∀ a b : α, (decide (f b ≤ f a) || decide (f a ≤ f b)) = true := by
    intro a b
    simp only [Bool.or_eq_true, decide_eq_true_eq]
    exact le_total (f b) (f a)
  have h : (l.mergeSort fun a b => decide (f b ≤ f a)).Pairwise
      (fun a b => decide (f b ≤ f a) = true) :=
    List.sorted_mergeSort htrans htotal l
  exact h.imp fun hab => of_decide_eq_true hab

/-- Stability in one statement: sorting the index-tagged list with the
index-refined comparator produces a strictly lexicographic order — key
strictly descending, ties strictly by original index. -/
theorem pairwise_lex_mergeSort_enum {α : Type} (f : α → ℚ) (l : List α) :
    ((l.enum).mergeSort (List.enumLE fun a b => decide (f b ≤ f a))).Pairwise
      fun a b => f b.2 < f a.2 ∨ (f a.2 = f b.2 ∧ a.1 < b.1) := by
  have htrans : ∀ a b c : α, decide (f b ≤ f a) = true → decide (f c ≤ f b) = true →
      decide (f c ≤ f a) = true := by
    intro a b c h1 h2
    rw [decide_eq_true_eq] at *
    exact le_trans h2 h1
  have htotal : ∀ a b : α, (decide (f b ≤ f a) || decide (f a ≤ f b)) = true := by
    intro a b
    simp only [Bool.or_eq_true, decide_eq_true_eq]
    exact le_total (f b) (f a)
  have hsorted : ((l.enum).mergeSort (List.enumLE fun a b => decide (f b ≤ f a))).Pairwise
      (fun a b => List.enumLE (fun a b => decide (f b ≤ f a)) a b = true) :=
    List.sorted_mergeSort (List.enumLE_trans htrans) (List.enumLE_total htotal) l.enum
  have hnodup : ((l.enum).mergeSort (List.enumLE fun a b => decide (f b ≤ f a))).Pairwise
      (fun a b : ℕ × α => a.1 ≠ b.1) := by
    have hperm := List.mergeSort_perm l.enum (List.enumLE fun a b => decide (f b ≤ f a))
    have h3 : (l.enum.map Prod.fst).Nodup := by
      rw [List.enum_map_fst]
      exact List.nodup_range _
    exact List.pairwise_map.mp (((hperm.map Prod.fst).symm).nodup h3)
  refine (hsorted.and hnodup).imp ?_
  rintro ⟨i, a⟩ ⟨j, b⟩ ⟨h1, h2⟩
  simp only [List.enumLE] at h1
  by_cases hba : f b ≤ f a
  · by_cases hab : f a ≤ f b
    · rw [decide_eq_true hba, decide_eq_true hab] at h1
      simp only [if_true] at h1
      have hij : i ≤ j := by simpa using h1
      exact Or.inr ⟨le_antisymm hab hba, lt_of_le_of_ne hij (by simpa using h2)⟩
    · exact Or.inl (lt_of_not_le hab)
  · rw [decide_eq_false hba] at h1
    simp at h1

/-- C1: in both directions the ranked output is sorted by composite score
descending, and it equals the truncation of the image of the index-tagged
survivor list under a sort that is strictly lexicographic in
(score descending, original pool position ascending) — equal scores keep
their original relative pool order. -/
theorem ranking_sorted_and_stable (job : JobPosting) (workers : List Worker)
    (worker : Worker) (jobs : List JobPosting) (query : MatchQuery) :
    ((find_matches_core job workers query).match_scores.Pairwise
        fun a b => b.score ≤ a.score) ∧
    ((find_matches_core job workers query).match_scores
        = (((matchScoresFor job workers (query.min_score.getD 0)).enum.mergeSort
              (List.enumLE scoreDescLE)).map (fun p => p.2)).take
            (min (query.limit.getD 50) 100)) ∧
    (((matchScoresFor job workers (query.min_score.getD 0)).enum.mergeSort
        (List.enumLE scoreDescLE)).Pairwise
      fun a b => b.2.score < a.2.score ∨ (a.2.score = b.2.score ∧ a.1 < b.1)) ∧
    ((find_jobs_for_worker_core worker jobs query).job_matches.Pairwise
        fun a b => b.score ≤ a.score) ∧
    ((find_jobs_for_worker_core worker jobs query).job_matches
        = (((jobMatchesFor worker jobs (query.min_score.getD 0)).enum.mergeSort
              (List.enumLE jobScoreDescLE)).map (fun p => p.2)).take
            (min (query.limit.getD 50) 100)) ∧
    (((jobMatchesFor worker jobs (query.min_score.getD 0)).enum.mergeSort
        (List.enumLE jobScoreDescLE)).Pairwise
      fun a b => b.2.score < a.2.score ∨ (a.2.score = b.2.score ∧ a.1 < b.1)) := by
  refine ⟨?_, ?_, ?_, ?_, ?_, ?_⟩
  · rw [match_scores_eq]
    exact List.Pairwise.sublist (List.take_sublist _ _)
      (pairwise_desc_mergeSort WorkerMatchScore.score _)
  · rw [match_scores_eq, List.mergeSort_enum]
  · exact pairwise_lex_mergeSort_enum WorkerMatchScore.score _
  · rw [job_matches_eq]
    exact List.Pairwise.sublist (List.take_sublist _ _)
      (pairwise_desc_mergeSort JobMatchScore.score _)
  · rw [job_matches_eq, List.mergeSort_enum]
  · exact pairwise_lex_mergeSort_enum JobMatchScore.score _
